import Mathlib

/-
Verification of the document-ai-agent backend (FastAPI glue layer).

The Python sources are shallowly embedded below:
* the processed-file ledger and its helpers from src/api/main.py
  (load_processed_files_tracking, get_file_info, is_file_processed),
* the sync endpoint sync_upload_folder from src/api/main.py,
* the query endpoint query_documents from src/api/main.py,
* the document loader dispatch from src/core/langchain_loader.py,
* the retention cleanup from src/utils/file_cleanup.py.

Python strings holding document text are modelled as lists of characters,
file sizes as naturals, and timestamps as integers.  Calls into third-party
libraries (the langchain loader, the splitter, the vector store) are
modelled as parameters: the outcome of loader.load() travels with each
directory entry, the splitter is an arbitrary function, and the vector
store is the list of documents handed to add_documents.
-/

namespace DocAgent

/-- Document text: a Python string as its sequence of characters. -/
abbrev Str := List Char

/-- A langchain Document: page_content plus the two metadata keys the API
reads (metadata.get "source" and metadata.get "page"). -/
structure Doc where
  page_content : Str
  source : Option String
  page : Option Int
deriving DecidableEq, Repr

/-- A record of the processed-files ledger as loaded from JSON: the keys
size, modified and processed_at may each be absent, in which case
dict.get returns None. -/
structure TrackedInfo where
  size : Option Nat
  modified : Option Int
  processed_at : Option String
deriving DecidableEq, Repr

/-- The processed-files ledger: a mapping from file path to record,
as an association list (first binding wins, as for a Python dict
rebuilt from JSON). -/
abbrev Ledger := List (String × TrackedInfo)

/-- The metadata dict built by get_file_info: all three keys present. -/
structure FileInfo where
  size : Nat
  modified : Int
  processed_at : String
deriving DecidableEq, Repr

instance (α β : Type) [DecidableEq α] [DecidableEq β] :
    DecidableEq (Except α β) := fun
  | Except.ok a, Except.ok b =>
      if h : a = b then Decidable.isTrue (by rw [h])
      else Decidable.isFalse (by simp [h])
  | Except.ok _, Except.error _ => Decidable.isFalse (by simp)
  | Except.error _, Except.ok _ => Decidable.isFalse (by simp)
  | Except.error a, Except.error b =>
      if h : a = b then Decidable.isTrue (by rw [h])
      else Decidable.isFalse (by simp [h])

/-- A file of the upload directory as the sync code sees it: its path,
its bare name, its path suffix, its stat data, its raw content, and the
outcome that loader.load() would give on it (ok docs, or an exception
message). The stat fields are what os.stat reports; content is carried
so that content independence of the ledger decision can be stated. -/
structure DirEntry where
  path : String
  name : String
  suffix : String
  size : Nat
  modified : Int
  content : Str
  loadResult : Except String (List Doc)
deriving DecidableEq, Repr

/-- get_file_info (src/api/main.py): returns the size, mtime and the
current timestamp in ISO format, the latter passed in as nowIso. -/
def get_file_info (f : DirEntry) (nowIso : String) : FileInfo :=
  { size := f.size, modified := f.modified, processed_at := nowIso }

/-- is_file_processed (src/api/main.py): false when the path has no
ledger record, else true iff both the stored size and the stored
modification time equal the current ones (a missing stored key reads
as None and compares unequal). -/
def is_file_processed (file_path : String) (current_info : FileInfo)
    (tracking_data : Ledger) : Bool :=
  match tracking_data.lookup file_path with
  | none => false
  | some tracked_info =>
      tracked_info.size == some current_info.size &&
      tracked_info.modified == some current_info.modified

/-- The state of the tracking file on disk: absent, or present with the
outcome of opening and JSON-parsing it (ok gives the parsed mapping,
error an exception). -/
inductive TrackingFile where
  | absent : TrackingFile
  | present : Except String Ledger → TrackingFile

/-- load_processed_files_tracking (src/api/main.py): parsed mapping when
the file exists and parses, empty mapping when it is absent or any
exception occurs while reading or parsing. -/
def load_processed_files_tracking : TrackingFile → Ledger
  | TrackingFile.absent => []
  | TrackingFile.present (Except.ok m) => m
  | TrackingFile.present (Except.error _) => []

/-- Lowercasing of a Python string, as str.lower on the ASCII range. -/
def str_lower (s : String) : String :=
  String.mk (s.data.map Char.toLower)

/-- The keys of loader_mapping in LangChainDocumentProcessor
(src/core/langchain_loader.py), equal to the supported_extensions list
scanned by the sync endpoint. -/
def supported_extensions : List String :=
  [".pdf", ".txt", ".docx", ".doc", ".md", ".csv", ".json"]

/-- LangChainDocumentProcessor._load_single_file: the lowercased suffix is
looked up in loader_mapping; an unsupported suffix returns the empty list
right away, otherwise the chosen loader runs and its outcome (documents
or an exception) is the one carried by the entry. -/
def load_single_file (f : DirEntry) : Except String (List Doc) :=
  if str_lower f.suffix ∈ supported_extensions then f.loadResult
  else Except.ok []

/-- True when loading the file raises nothing and extracts at least one
document. -/
def load_ok_nonempty (f : DirEntry) : Bool :=
  match load_single_file f with
  | Except.ok (_ :: _) => true
  | _ => false

/-- The documents a file loads to, empty on an exception. -/
def loaded_docs (f : DirEntry) : List Doc :=
  match load_single_file f with
  | Except.ok ds => ds
  | Except.error _ => []

/-- The ledger record written for a freshly processed file: the
get_file_info dict has all three keys. -/
def toTracked (i : FileInfo) : TrackedInfo :=
  { size := some i.size, modified := some i.modified,
    processed_at := some i.processed_at }

/-- Python dict assignment on the ledger: bind the key, shadowing any
previous binding. -/
def ledgerInsert (l : Ledger) (k : String) (v : TrackedInfo) : Ledger :=
  (k, v) :: l.filter (fun p => p.1 ≠ k)

/-- The first loop of sync_upload_folder: split the scanned files into
new_files and already_processed_files by is_file_processed, keeping
scan order. -/
def classify_files (tracking : Ledger) (nowIso : String) :
    List DirEntry → List DirEntry × List DirEntry
  | [] => ([], [])
  | f :: rest =>
      let r := classify_files tracking nowIso rest
      if is_file_processed f.path (get_file_info f nowIso) tracking then
        (r.1, f :: r.2)
      else
        (f :: r.1, r.2)

/-- One entry of the failed_files list of the sync response. -/
structure FailedEntry where
  file : String
  error : String
deriving DecidableEq, Repr

/-- The mutable state of the per-file processing loop of
sync_upload_folder: the processed_files names, the failed_files entries,
the ledger being updated, and the documents handed to
vector_store_manager.add_documents so far. -/
structure LoopState where
  procd : List String
  failedf : List FailedEntry
  ledger : Ledger
  added : List Doc
deriving Repr

/-- The second loop of sync_upload_folder over new_files: a load
exception is caught and recorded as {file, error}; an empty document
list is recorded as "No documents extracted"; otherwise the documents
are split, added to the vector store, and the ledger gets the file
metadata under the file path. -/
def processFiles (split : List Doc → List Doc) (nowIso : String) :
    List DirEntry → Ledger → LoopState
  | [], ledger => { procd := [], failedf := [], ledger := ledger, added := [] }
  | f :: rest, ledger =>
      match load_single_file f with
      | Except.error e =>
          let r := processFiles split nowIso rest ledger
          { r with failedf := { file := f.name, error := e } :: r.failedf }
      | Except.ok [] =>
          let r := processFiles split nowIso rest ledger
          { r with failedf :=
              { file := f.name, error := "No documents extracted" } :: r.failedf }
      | Except.ok (d :: ds) =>
          let r := processFiles split nowIso rest
            (ledgerInsert ledger f.path (toTracked (get_file_info f nowIso)))
          { r with procd := f.name :: r.procd,
                   added := split (d :: ds) ++ r.added }

/-- The SyncResponse model of src/api/main.py. -/
structure SyncResponse where
  status : String
  total_files_in_folder : Nat
  new_files_processed : Nat
  already_processed : Nat
  failed : Nat
  processed_files : List String
  failed_files : List FailedEntry
  processing_time : Int
deriving DecidableEq, Repr

/-- The observable outcome of a sync call: the HTTP response, the saved
ledger, and the documents added to the vector store. -/
structure SyncResult where
  response : SyncResponse
  ledger : Ledger
  added : List Doc
deriving Repr

/-- sync_upload_folder (src/api/main.py): files is the scan of the upload
directory for supported extensions with the tracking file dropped,
tracking the loaded ledger, split the AdvancedTextSplitter call, and t
the measured processing time. -/
def sync_upload_folder (tracking : Ledger) (nowIso : String)
    (split : List Doc → List Doc) (files : List DirEntry) (t : Int) :
    SyncResult :=
  let parts := classify_files tracking nowIso files
  let st := processFiles split nowIso parts.1 tracking
  { response :=
      { status := "success",
        total_files_in_folder := files.length,
        new_files_processed := st.procd.length,
        already_processed := parts.2.length,
        failed := st.failedf.length,
        processed_files := st.procd,
        failed_files := st.failedf,
        processing_time := t },
    ledger := st.ledger,
    added := st.added }

/-- A directory entry as FileCleanupManager sees it: glob "*" yields
paths; is_file and st_mtime are what the loop reads. -/
structure CleanupEntry where
  path : String
  regular : Bool
  mtime : Int
deriving DecidableEq, Repr

/-- The loop body of cleanup_old_files: delete a regular file whose
mtime is strictly below the cutoff, collect its path; leave every other
entry. Returns the deleted paths and the surviving entries. -/
def cleanupLoop (cutoff : Int) : List CleanupEntry → List String × List CleanupEntry
  | [] => ([], [])
  | f :: rest =>
      let r := cleanupLoop cutoff rest
      if f.regular then
        if f.mtime < cutoff then (f.path :: r.1, r.2)
        else (r.1, f :: r.2)
      else (r.1, f :: r.2)

/-- FileCleanupManager.cleanup_old_files (src/utils/file_cleanup.py):
cutoff_time is now minus retention_days of 86400 seconds; dir is the
glob of the upload directory. -/
def cleanup_old_files (retention_days : Nat) (now : Int)
    (dir : List CleanupEntry) : List String × List CleanupEntry :=
  cleanupLoop (now - retention_days * 86400) dir

/-- The QueryRequest model of src/api/main.py. -/
structure QueryRequest where
  question : String
  use_conversation : Bool
deriving DecidableEq, Repr

/-- The dict returned by SimpleQAAgent.query as the endpoint reads it:
the answer string and the retrieved source documents. -/
structure AgentResult where
  answer : String
  source_documents : List Doc
deriving DecidableEq, Repr

/-- One entry of the sources list of the query response: the dict with
keys content, source and page built in the loop of query_documents. -/
structure SourceEntry where
  content : Str
  source : String
  page : Option Int
deriving DecidableEq, Repr

/-- The QueryResponse model of src/api/main.py. -/
structure QueryResponse where
  answer : String
  sources : List SourceEntry
  processing_time : Int
deriving DecidableEq, Repr

/-- The content field of a source entry: page_content unchanged when its
length is at most 200 characters, else its first 200 characters followed
by the three-dot suffix. -/
def truncate_content (s : Str) : Str :=
  if s.length > 200 then s.take 200 ++ ['.', '.', '.'] else s

/-- query_documents (src/api/main.py): call the agent on the question and
the conversation flag, then build the response; agent stands for
ai_agent.query and t for the measured time. -/
def query_documents (agent : String → Bool → AgentResult)
    (req : QueryRequest) (t : Int) : QueryResponse :=
  let result := agent req.question req.use_conversation
  { answer := result.answer,
    sources := result.source_documents.map (fun doc =>
      { content := truncate_content doc.page_content,
        source := doc.source.getD "Unknown",
        page := doc.page }),
    processing_time := t }

/-! ## Theorems -/

/-- Claim C1: is_file_processed returns true iff the ledger holds a record
for the path whose stored size and stored modification time both equal
the current size and modification time of the file. -/
theorem is_file_processed_iff (p : String) (info : FileInfo) (tracking : Ledger) :
    is_file_processed p info tracking = true ↔
      ∃ rec : TrackedInfo, tracking.lookup p = some rec ∧
        rec.size = some info.size ∧ rec.modified = some info.modified := by
  cases h : tracking.lookup p with
  | none => simp [is_file_processed, h]
  | some rec => simp [is_file_processed, h]

/-- Claim C10: loading the ledger is total: the parsed mapping when the
file exists and parses, the empty mapping when the file is absent or
reading raises; and under the empty mapping every file is unprocessed. -/
theorem load_tracking_total (m : Ledger) (e : String) (p : String) (i : FileInfo) :
    load_processed_files_tracking (TrackingFile.present (Except.ok m)) = m ∧
    load_processed_files_tracking (TrackingFile.present (Except.error e)) = [] ∧
    load_processed_files_tracking TrackingFile.absent = [] ∧
    is_file_processed p i
      (load_processed_files_tracking (TrackingFile.present (Except.error e))) = false := by
  refine ⟨rfl, rfl, rfl, ?_⟩
  simp [load_processed_files_tracking, is_file_processed]

/-- Claim C5: the already-processed decision reads only path, size and
modification time: two directory entries agreeing on those three fields
get the same answer against the same ledger, whatever their contents,
and the sync classification counts them as already processed alike. -/
theorem processed_decision_content_independent (f g : DirEntry)
    (tracking : Ledger) (nowIso : String) (split : List Doc → List Doc) (t : Int)
    (hp : f.path = g.path) (hs : f.size = g.size) (hm : f.modified = g.modified) :
    is_file_processed f.path (get_file_info f nowIso) tracking =
      is_file_processed g.path (get_file_info g nowIso) tracking ∧
    (sync_upload_folder tracking nowIso split [f] t).response.already_processed =
      (sync_upload_folder tracking nowIso split [g] t).response.already_processed := by
  have hdec : is_file_processed f.path (get_file_info f nowIso) tracking =
      is_file_processed g.path (get_file_info g nowIso) tracking := by
    simp only [get_file_info, is_file_processed, hp, hs, hm]
  refine ⟨hdec, ?_⟩
  simp only [sync_upload_folder, classify_files]
  cases h : is_file_processed g.path (get_file_info g nowIso) tracking with
  | true => rw [hdec, h]; simp
  | false => rw [hdec, h]; simp

/-- Claim C4: a file whose lowercased suffix is outside the supported
extensions loads to the empty document list with no exception. -/
theorem load_unsupported_ok_empty (f : DirEntry)
    (h : str_lower f.suffix ∉ supported_extensions) :
    load_single_file f = Except.ok [] := by
  simp [load_single_file, h]

theorem cleanupLoop_characterization (cutoff : Int) (dir : List CleanupEntry) :
    (cleanupLoop cutoff dir).1 =
      (dir.filter (fun f => f.regular && decide (f.mtime < cutoff))).map
        (fun f => f.path) ∧
    (cleanupLoop cutoff dir).2 =
      dir.filter (fun f => !(f.regular && decide (f.mtime < cutoff))) := by
  induction dir with
  | nil => simp [cleanupLoop]
  | cons f rest ih =>
      rcases ih with ⟨ih1, ih2⟩
      by_cases hr : f.regular = true
      · by_cases hm : f.mtime < cutoff
        · simp [cleanupLoop, hr, hm, ih1, ih2, List.filter]
        · simp [cleanupLoop, hr, hm, ih1, ih2, List.filter]
      · simp [cleanupLoop, hr, ih1, ih2, List.filter]

/-- Claim C2: cleanup_old_files deletes exactly the regular files whose
modification time lies strictly before now minus retention_days days,
returns their paths in scan order, and the surviving directory is
exactly the other entries. -/
theorem cleanup_old_files_spec (retention_days : Nat) (now : Int)
    (dir : List CleanupEntry) :
    (cleanup_old_files retention_days now dir).1 =
      (dir.filter (fun f =>
        f.regular && decide (f.mtime < now - retention_days * 86400))).map
        (fun f => f.path) ∧
    (cleanup_old_files retention_days now dir).2 =
      dir.filter (fun f =>
        !(f.regular && decide (f.mtime < now - retention_days * 86400))) :=
  cleanupLoop_characterization (now - retention_days * 86400) dir

theorem classify_files_characterization (tracking : Ledger) (nowIso : String)
    (files : List DirEntry) :
    (classify_files tracking nowIso files).1 =
      files.filter (fun f =>
        !is_file_processed f.path (get_file_info f nowIso) tracking) ∧
    (classify_files tracking nowIso files).2 =
      files.filter (fun f =>
        is_file_processed f.path (get_file_info f nowIso) tracking) := by
  induction files with
  | nil => simp [classify_files]
  | cons f rest ih =>
      rcases ih with ⟨ih1, ih2⟩
      cases h : is_file_processed f.path (get_file_info f nowIso) tracking with
      | true => simp [classify_files, h, ih1, ih2]
      | false => simp [classify_files, h, ih1, ih2]

theorem processFiles_length (split : List Doc → List Doc) (nowIso : String)
    (l : List DirEntry) : ∀ ledger : Ledger,
    (processFiles split nowIso l ledger).procd.length +
      (processFiles split nowIso l ledger).failedf.length = l.length := by
  induction l with
  | nil => intro ledger; simp [processFiles]
  | cons f rest ih =>
      intro ledger
      cases h : load_single_file f with
      | error e =>
          have := ih ledger
          simp [processFiles, h]
          omega
      | ok ds =>
          cases ds with
          | nil =>
              have := ih ledger
              simp [processFiles, h]
              omega
          | cons d ds =>
              have := ih (ledgerInsert ledger f.path
                (toTracked (get_file_info f nowIso)))
              simp [processFiles, h]
              omega

/-- Claim C8: the counters of a sync response partition the scanned
files: new_files_processed plus failed plus already_processed equals
total_files_in_folder. -/
theorem sync_counters_partition (tracking : Ledger) (nowIso : String)
    (split : List Doc → List Doc) (files : List DirEntry) (t : Int) :
    (sync_upload_folder tracking nowIso split files t).response.new_files_processed +
      (sync_upload_folder tracking nowIso split files t).response.failed +
      (sync_upload_folder tracking nowIso split files t).response.already_processed =
    (sync_upload_folder tracking nowIso split files t).response.total_files_in_folder := by
  have hclass := classify_files_characterization tracking nowIso files
  have hlen := processFiles_length split nowIso
    (classify_files tracking nowIso files).1 tracking
  have hsplit : (classify_files tracking nowIso files).1.length +
      (classify_files tracking nowIso files).2.length = files.length := by
    rw [hclass.1, hclass.2]
    have h2 := List.length_eq_length_filter_add (l := files)
      (fun f => is_file_processed f.path (get_file_info f nowIso) tracking)
    simp only [Bool.not_eq_true] at h2 ⊢
    omega
  simp only [sync_upload_folder]
  omega

/-- Written from the spec wording: a file agrees with the ledger when the
ledger records, under its path, exactly its current size and its current
modification time. -/
def ledger_matches (tracking : Ledger) (f : DirEntry) : Bool :=
  ((tracking.lookup f.path).map (fun rec =>
    rec.size == some f.size && rec.modified == some f.modified)).getD false

theorem ledger_matches_eq (tracking : Ledger) (nowIso : String) (f : DirEntry) :
    ledger_matches tracking f =
      is_file_processed f.path (get_file_info f nowIso) tracking := by
  cases h : tracking.lookup f.path with
  | none => simp [ledger_matches, is_file_processed, h]
  | some rec => simp [ledger_matches, is_file_processed, get_file_info, h]

theorem processFiles_all_ok (split : List Doc → List Doc) (nowIso : String)
    (l : List DirEntry) (h : ∀ f ∈ l, load_ok_nonempty f = true) :
    ∀ ledger : Ledger,
    (processFiles split nowIso l ledger).procd = l.map (fun f => f.name) ∧
    (processFiles split nowIso l ledger).failedf = [] ∧
    (processFiles split nowIso l ledger).added =
      (l.map (fun f => split (loaded_docs f))).flatten := by
  induction l with
  | nil => intro ledger; simp [processFiles]
  | cons f rest ih =>
      intro ledger
      have hf := h f (List.mem_cons_self f rest)
      have hrest : ∀ g ∈ rest, load_ok_nonempty g = true := by
        intro g hg
        exact h g (List.mem_cons_of_mem f hg)
      cases hl : load_single_file f with
      | error e => simp [load_ok_nonempty, hl] at hf
      | ok ds =>
          cases ds with
          | nil => simp [load_ok_nonempty, hl] at hf
          | cons d ds =>
              have hdocs : loaded_docs f = d :: ds := by
                simp [loaded_docs, hl]
              have hr := ih hrest (ledgerInsert ledger f.path
                (toTracked (get_file_info f nowIso)))
              simp [processFiles, hl, hr.1, hr.2.1, hr.2.2, hdocs]

/-- Claim C3: when loading succeeds with documents on every scanned file,
the sync endpoint ingests exactly the files whose recorded size or
modification time differs from the ledger: processed_files lists exactly
their names, the documents added to the vector store are exactly their
split documents, and every file the ledger already records with this
size and modification time is only counted in already_processed. -/
theorem sync_ingests_exactly_changed (tracking : Ledger) (nowIso : String)
    (split : List Doc → List Doc) (files : List DirEntry) (t : Int)
    (h : ∀ f ∈ files, load_ok_nonempty f = true) :
    (sync_upload_folder tracking nowIso split files t).response.processed_files =
      (files.filter (fun f => !ledger_matches tracking f)).map (fun f => f.name) ∧
    (sync_upload_folder tracking nowIso split files t).added =
      ((files.filter (fun f => !ledger_matches tracking f)).map
        (fun f => split (loaded_docs f))).flatten ∧
    (sync_upload_folder tracking nowIso split files t).response.already_processed =
      (files.filter (fun f => ledger_matches tracking f)).length := by
  have hfilt1 : files.filter (fun f => !ledger_matches tracking f) =
      files.filter (fun f =>
        !is_file_processed f.path (get_file_info f nowIso) tracking) := by
    apply List.filter_congr
    intro f _
    rw [ledger_matches_eq tracking nowIso f]
  have hfilt2 : files.filter (fun f => ledger_matches tracking f) =
      files.filter (fun f =>
        is_file_processed f.path (get_file_info f nowIso) tracking) := by
    apply List.filter_congr
    intro f _
    rw [ledger_matches_eq tracking nowIso f]
  have hclass := classify_files_characterization tracking nowIso files
  have hsub : ∀ f ∈ (classify_files tracking nowIso files).1,
      load_ok_nonempty f = true := by
    intro f hfmem
    rw [hclass.1] at hfmem
    exact h f (List.mem_of_mem_filter hfmem)
  have hok := processFiles_all_ok split nowIso
    (classify_files tracking nowIso files).1 hsub tracking
  refine ⟨?_, ?_, ?_⟩
  · simp only [sync_upload_folder]
    rw [hok.1, hclass.1, hfilt1]
  · simp only [sync_upload_folder]
    rw [hok.2.2, hclass.1, hfilt1]
  · simp only [sync_upload_folder]
    rw [hclass.2, hfilt2]

theorem processFiles_error_mem (split : List Doc → List Doc) (nowIso : String)
    (l : List DirEntry) (f : DirEntry) (e : String)
    (hf : f ∈ l) (he : load_single_file f = Except.error e) :
    ∀ ledger : Ledger, ({ file := f.name, error := e } : FailedEntry) ∈
      (processFiles split nowIso l ledger).failedf := by
  induction l with
  | nil => exact absurd hf (List.not_mem_nil f)
  | cons g rest ih =>
      intro ledger
      rcases List.mem_cons.mp hf with hfg | hfr
      · subst hfg
        simp [processFiles, he]
      · cases hl : load_single_file g with
        | error e2 =>
            simp only [processFiles, hl]
            exact List.mem_cons_of_mem _ (ih hfr ledger)
        | ok ds =>
            cases ds with
            | nil =>
                simp only [processFiles, hl]
                exact List.mem_cons_of_mem _ (ih hfr ledger)
            | cons d ds =>
                simp only [processFiles, hl]
                exact ih hfr (ledgerInsert ledger g.path
                  (toTracked (get_file_info g nowIso)))

theorem processFiles_ok_mem (split : List Doc → List Doc) (nowIso : String)
    (l : List DirEntry) (g : DirEntry)
    (hg : g ∈ l) (hok : load_ok_nonempty g = true) :
    ∀ ledger : Ledger, g.name ∈ (processFiles split nowIso l ledger).procd := by
  induction l with
  | nil => exact absurd hg (List.not_mem_nil g)
  | cons f rest ih =>
      intro ledger
      rcases List.mem_cons.mp hg with hgf | hgr
      · subst hgf
        cases hl : load_single_file g with
        | error e => simp [load_ok_nonempty, hl] at hok
        | ok ds =>
            cases ds with
            | nil => simp [load_ok_nonempty, hl] at hok
            | cons d ds => simp [processFiles, hl]
      · cases hl : load_single_file f with
        | error e =>
            simp only [processFiles, hl]
            exact ih hgr ledger
        | ok ds =>
            cases ds with
            | nil =>
                simp only [processFiles, hl]
                exact ih hgr ledger
            | cons d ds =>
                simp only [processFiles, hl]
                exact List.mem_cons_of_mem _ (ih hgr
                  (ledgerInsert ledger f.path (toTracked (get_file_info f nowIso))))

/-- Claim C6: when loading a new file raises, sync records a
{file, error} entry for it in failed_files, still answers with status
success, and every other new file whose load succeeds with documents is
still processed. -/
theorem sync_per_file_failure_recorded (tracking : Ledger) (nowIso : String)
    (split : List Doc → List Doc) (files : List DirEntry) (t : Int)
    (f : DirEntry) (e : String)
    (hf : f ∈ files)
    (hnew : is_file_processed f.path (get_file_info f nowIso) tracking = false)
    (he : load_single_file f = Except.error e) :
    ({ file := f.name, error := e } : FailedEntry) ∈
      (sync_upload_folder tracking nowIso split files t).response.failed_files ∧
    (sync_upload_folder tracking nowIso split files t).response.status = "success" ∧
    (∀ g ∈ files,
      is_file_processed g.path (get_file_info g nowIso) tracking = false →
      load_ok_nonempty g = true →
      g.name ∈ (sync_upload_folder tracking nowIso split files t).response.processed_files) := by
  have hclass := classify_files_characterization tracking nowIso files
  have hfmem : f ∈ (classify_files tracking nowIso files).1 := by
    rw [hclass.1]
    exact List.mem_filter.mpr ⟨hf, by simp [hnew]⟩
  refine ⟨?_, rfl, ?_⟩
  · simp only [sync_upload_folder]
    exact processFiles_error_mem split nowIso _ f e hfmem he tracking
  · intro g hg hgnew hgok
    have hgmem : g ∈ (classify_files tracking nowIso files).1 := by
      rw [hclass.1]
      exact List.mem_filter.mpr ⟨hg, by simp [hgnew]⟩
    simp only [sync_upload_folder]
    exact processFiles_ok_mem split nowIso _ g hgmem hgok tracking

/-- Claim C7: a successful query response carries the agent answer, the
measured processing time, and one sources entry per retrieved document,
each entry holding exactly the truncated content, the source metadata
defaulting to Unknown, and the page metadata. -/
theorem query_response_shape (agent : String → Bool → AgentResult)
    (req : QueryRequest) (t : Int) :
    (query_documents agent req t).answer =
      (agent req.question req.use_conversation).answer ∧
    (query_documents agent req t).processing_time = t ∧
    (query_documents agent req t).sources.length =
      (agent req.question req.use_conversation).source_documents.length ∧
    ∀ s ∈ (query_documents agent req t).sources,
      ∃ d ∈ (agent req.question req.use_conversation).source_documents,
        s.content = truncate_content d.page_content ∧
        s.source = d.source.getD "Unknown" ∧ s.page = d.page := by
  refine ⟨rfl, rfl, by simp [query_documents], ?_⟩
  intro s hs
  simp only [query_documents, List.mem_map] at hs
  obtain ⟨d, hd, rfl⟩ := hs
  exact ⟨d, hd, rfl, rfl, rfl⟩

theorem truncate_content_eq (s : Str) :
    truncate_content s =
      if s.length ≤ 200 then s else s.take 200 ++ ['.', '.', '.'] := by
  by_cases h : s.length ≤ 200
  · simp only [truncate_content]
    rw [if_neg (by omega), if_pos h]
  · simp only [truncate_content]
    rw [if_pos (by omega), if_neg h]

theorem truncate_content_length (s : Str) : (truncate_content s).length ≤ 203 := by
  simp only [truncate_content]
  split
  next h =>
    simp only [List.length_append, List.length_take, List.length_cons,
      List.length_nil]
    omega
  next h => omega

/-- Claim C9: each sources entry of a query response carries the
page_content unchanged when its length is at most 200 characters and
otherwise its first 200 characters followed by three dots, so every
content field has length at most 203. -/
theorem source_content_truncation (agent : String → Bool → AgentResult)
    (req : QueryRequest) (t : Int) :
    (query_documents agent req t).sources.map (fun s => s.content) =
      (agent req.question req.use_conversation).source_documents.map
        (fun d => if d.page_content.length ≤ 200 then d.page_content
          else d.page_content.take 200 ++ ['.', '.', '.']) ∧
    ∀ s ∈ (query_documents agent req t).sources, s.content.length ≤ 203 := by
  constructor
  · simp only [query_documents, List.map_map]
    apply List.map_congr_left
    intro d _
    exact truncate_content_eq d.page_content
  · intro s hs
    simp only [query_documents, List.mem_map] at hs
    obtain ⟨d, _, rfl⟩ := hs
    exact truncate_content_length d.page_content

/-! ## Concrete instances -/

/-- A small retrieved document. -/
def exDocA : Doc := { page_content := ['h', 'i'], source := some "up/a.txt", page := some 1 }

/-- A ledger recording a.txt with size 2 and mtime 10. -/
def exLedgerA : Ledger :=
  [("up/a.txt", { size := some 2, modified := some 10, processed_at := some "t0" })]

/-- The file a.txt exactly as the ledger records it. -/
def exEntryA : DirEntry :=
  { path := "up/a.txt", name := "a.txt", suffix := ".txt", size := 2, modified := 10,
    content := ['h', 'i'], loadResult := Except.ok [exDocA] }

/-- The file a.txt rewritten with other content but identical stats. -/
def exEntryA2 : DirEntry := { exEntryA with content := ['y', 'o'] }

/-- A file the ledger does not record. -/
def exEntryB : DirEntry :=
  { path := "up/b.txt", name := "b.txt", suffix := ".txt", size := 5, modified := 20,
    content := ['w'],
    loadResult := Except.ok [{ page_content := ['w'], source := some "up/b.txt", page := none }] }

/-- An unrecorded file whose loader raises. -/
def exEntryErr : DirEntry :=
  { path := "up/c.pdf", name := "c.pdf", suffix := ".pdf", size := 7, modified := 30,
    content := [], loadResult := Except.error "parse failure" }

/-- A file with an unsupported suffix; its loader is never reached. -/
def exEntryX : DirEntry :=
  { path := "up/d.xyz", name := "d.xyz", suffix := ".xyz", size := 1, modified := 0,
    content := [], loadResult := Except.error "never called" }

theorem load_unsupported_ok_empty_witness :
    str_lower exEntryX.suffix ∉ supported_extensions ∧
    load_single_file exEntryX = Except.ok [] :=
  ⟨by decide, load_unsupported_ok_empty exEntryX (by decide)⟩

theorem processed_decision_content_independent_witness :
    exEntryA.path = exEntryA2.path ∧ exEntryA.size = exEntryA2.size ∧
    exEntryA.modified = exEntryA2.modified ∧ exEntryA.content ≠ exEntryA2.content ∧
    (is_file_processed exEntryA.path (get_file_info exEntryA "t1") exLedgerA =
        is_file_processed exEntryA2.path (get_file_info exEntryA2 "t1") exLedgerA ∧
      (sync_upload_folder exLedgerA "t1" id [exEntryA] 0).response.already_processed =
        (sync_upload_folder exLedgerA "t1" id [exEntryA2] 0).response.already_processed) :=
  ⟨rfl, rfl, rfl, by decide,
    processed_decision_content_independent exEntryA exEntryA2 exLedgerA "t1" id 0
      rfl rfl rfl⟩

theorem sync_ingests_exactly_changed_witness :
    (∀ f ∈ [exEntryA, exEntryB], load_ok_nonempty f = true) ∧
    ((sync_upload_folder exLedgerA "t1" id [exEntryA, exEntryB] 3).response.processed_files =
        (([exEntryA, exEntryB]).filter (fun f => !ledger_matches exLedgerA f)).map
          (fun f => f.name) ∧
      (sync_upload_folder exLedgerA "t1" id [exEntryA, exEntryB] 3).added =
        ((([exEntryA, exEntryB]).filter (fun f => !ledger_matches exLedgerA f)).map
          (fun f => id (loaded_docs f))).flatten ∧
      (sync_upload_folder exLedgerA "t1" id [exEntryA, exEntryB] 3).response.already_processed =
        (([exEntryA, exEntryB]).filter (fun f => ledger_matches exLedgerA f)).length) :=
  ⟨by decide,
    sync_ingests_exactly_changed exLedgerA "t1" id [exEntryA, exEntryB] 3 (by decide)⟩

theorem sync_per_file_failure_recorded_witness :
    exEntryErr ∈ [exEntryA, exEntryErr, exEntryB] ∧
    is_file_processed exEntryErr.path (get_file_info exEntryErr "t1") exLedgerA = false ∧
    load_single_file exEntryErr = Except.error "parse failure" ∧
    (({ file := exEntryErr.name, error := "parse failure" } : FailedEntry) ∈
        (sync_upload_folder exLedgerA "t1" id [exEntryA, exEntryErr, exEntryB] 0).response.failed_files ∧
      (sync_upload_folder exLedgerA "t1" id [exEntryA, exEntryErr, exEntryB] 0).response.status = "success" ∧
      (∀ g ∈ [exEntryA, exEntryErr, exEntryB],
        is_file_processed g.path (get_file_info g "t1") exLedgerA = false →
        load_ok_nonempty g = true →
        g.name ∈ (sync_upload_folder exLedgerA "t1" id
          [exEntryA, exEntryErr, exEntryB] 0).response.processed_files)) :=
  ⟨by decide, by decide, by decide,
    sync_per_file_failure_recorded exLedgerA "t1" id [exEntryA, exEntryErr, exEntryB] 0
      exEntryErr "parse failure" (by decide) (by decide) (by decide)⟩

end DocAgent
